import Mathlib

/-!
Verification development for the music-trivia generator scripts
(`top100.py` and `top100_multi.py`).

The Python sources are shallowly embedded: pure functions become Lean
functions, the stateful pipeline becomes explicit state passing, external
services (OpenAI, cover providers, HTTP, the file system) become oracle
parameters, and Python exceptions become `Except`/`Option` values.
Brace characters inside string and character literals are written with the
escapes \x7b and \x7d.
-/

/-! ## JSON values and a model of Python's json.loads

The scripts feed regex-extracted candidate substrings to `json.loads`.
We model the decoded values and the decoder itself.  The model covers the
JSON fragment the scripts exercise: objects, arrays, strings with the
common escapes, numbers, and the three literals; `\uXXXX` escapes and the
non-standard NaN/Infinity extensions are not modelled.  Numbers are kept
as their lexemes, since the scripts never do arithmetic on decoded data.
-/

inductive Json where
  | null : Json
  | bool (b : Bool) : Json
  | num (lexeme : String) : Json
  | str (s : String) : Json
  | arr (items : List Json) : Json
  | obj (members : List (String × Json)) : Json

/-- Whitespace accepted between JSON tokens by `json.loads`. -/
def isJsonWs (c : Char) : Bool :=
  c = ' ' || c = '\t' || c = '\n' || c = '\r'

def skipWs : List Char → List Char
  | [] => []
  | c :: cs => if isJsonWs c then skipWs cs else c :: cs

/-- Escape sequences accepted inside JSON string literals (short escapes). -/
def escChar (e : Char) : Option Char :=
  if e = '"' then some '"'
  else if e = '\\' then some '\\'
  else if e = '/' then some '/'
  else if e = 'n' then some '\n'
  else if e = 't' then some '\t'
  else if e = 'r' then some '\r'
  else if e = 'b' then some (Char.ofNat 8)
  else if e = 'f' then some (Char.ofNat 12)
  else none

/-- Parses the body of a JSON string after the opening quote; returns the
decoded characters and the remaining input after the closing quote. -/
def parseStrChars : List Char → Option (List Char × List Char)
  | [] => none
  | c :: cs =>
    if c = '"' then some ([], cs)
    else if c = '\\' then
      match cs with
      | [] => none
      | e :: cs2 =>
        match escChar e with
        | none => none
        | some ch => (parseStrChars cs2).map (fun p => (ch :: p.1, p.2))
    else (parseStrChars cs).map (fun p => (c :: p.1, p.2))

/-- Integer part of a JSON number: `0` or a nonzero digit followed by digits. -/
def parseIntDigits (cs : List Char) : Option (List Char × List Char) :=
  match cs.span (fun c => c.isDigit) with
  | ([], _) => none
  | ([d], r) => some ([d], r)
  | (d :: ds, r) => if d = '0' then none else some (d :: ds, r)

/-- Optional fractional part `.digits` of a JSON number. -/
def parseFracDigits (cs : List Char) : Option (List Char × List Char) :=
  match cs with
  | '.' :: r =>
    match r.span (fun c => c.isDigit) with
    | ([], _) => none
    | (ds, r2) => some ('.' :: ds, r2)
  | _ => some ([], cs)

/-- Optional exponent part `e[+-]digits` of a JSON number. -/
def parseExpDigits (cs : List Char) : Option (List Char × List Char) :=
  match cs with
  | e :: r =>
    if e = 'e' || e = 'E' then
      match r with
      | s :: r1 =>
        if s = '+' || s = '-' then
          match r1.span (fun c => c.isDigit) with
          | ([], _) => none
          | (ds, r2) => some (e :: s :: ds, r2)
        else
          match r.span (fun c => c.isDigit) with
          | ([], _) => none
          | (ds, r2) => some (e :: ds, r2)
      | [] => none
    else some ([], cs)
  | [] => some ([], [])

/-- Unsigned JSON number: integer part, optional fraction, optional exponent. -/
def parseUnsignedNum (cs : List Char) : Option (List Char × List Char) :=
  match parseIntDigits cs with
  | none => none
  | some (ip, r1) =>
    match parseFracDigits r1 with
    | none => none
    | some (fp, r2) =>
      match parseExpDigits r2 with
      | none => none
      | some (ep, r3) => some (ip ++ fp ++ ep, r3)

/-- JSON number with optional leading minus sign. -/
def parseNum (cs : List Char) : Option (Json × List Char) :=
  match cs with
  | '-' :: r => (parseUnsignedNum r).map (fun p => (Json.num (String.mk ('-' :: p.1)), p.2))
  | _ => (parseUnsignedNum cs).map (fun p => (Json.num (String.mk p.1), p.2))

/-- Recursive-descent JSON parser, defined with explicit fuel so that it is
structurally recursive and evaluates by `rfl`/`decide`.  `mode = 0` parses a
value, `mode = 1` the members of a non-empty object (after the opening brace),
`mode = 2` the items of a non-empty array.  Every recursive call consumes at
least one input character, so fuel `length + 1` always suffices. -/
def parseCore : Nat → Nat → List Char → Option (Json × List Char)
  | 0, _, _ => none
  | fuel+1, 1, cs =>
    match skipWs cs with
    | '"' :: rest =>
      match parseStrChars rest with
      | none => none
      | some (k, r1) =>
        match skipWs r1 with
        | ':' :: r2 =>
          match parseCore fuel 0 r2 with
          | none => none
          | some (v, r3) =>
            match skipWs r3 with
            | ',' :: r4 =>
              match parseCore fuel 1 r4 with
              | some (Json.obj kvs, r) => some (Json.obj ((String.mk k, v) :: kvs), r)
              | _ => none
            | '\x7d' :: r4 => some (Json.obj [(String.mk k, v)], r4)
            | _ => none
        | _ => none
    | _ => none
  | fuel+1, 2, cs =>
    match parseCore fuel 0 cs with
    | none => none
    | some (v, r1) =>
      match skipWs r1 with
      | ',' :: r2 =>
        match parseCore fuel 2 r2 with
        | some (Json.arr xs, r) => some (Json.arr (v :: xs), r)
        | _ => none
      | ']' :: r2 => some (Json.arr [v], r2)
      | _ => none
  | fuel+1, _, cs =>
    match skipWs cs with
    | '\x7b' :: rest =>
      match skipWs rest with
      | '\x7d' :: r => some (Json.obj [], r)
      | r => parseCore fuel 1 r
    | '[' :: rest =>
      match skipWs rest with
      | ']' :: r => some (Json.arr [], r)
      | r => parseCore fuel 2 r
    | '"' :: rest => (parseStrChars rest).map (fun p => (Json.str (String.mk p.1), p.2))
    | cs2 =>
      if ("true".toList).isPrefixOf cs2 then some (Json.bool true, cs2.drop 4)
      else if ("false".toList).isPrefixOf cs2 then some (Json.bool false, cs2.drop 5)
      else if ("null".toList).isPrefixOf cs2 then some (Json.null, cs2.drop 4)
      else parseNum cs2

/-- Model of `json.loads` applied to a candidate substring: parse one JSON
value and require that only whitespace follows it. -/
def jsonLoads (cs : List Char) : Option Json :=
  match parseCore (cs.length + 1) 0 cs with
  | some (v, rest) => if skipWs rest = [] then some v else none
  | none => none

/-! ## Model of extract_json_from_response

`top100.py` lines 205-228 and `top100_multi.py` lines 51-76 run
`re.findall(r'\x7b.*\x7d', raw_content, re.DOTALL)` and feed each match to
`json.loads`, returning the first successful decode.  Because the pattern is
greedy and matches are non-overlapping, `findall` returns at most one match:
the substring from the first brace-open to the last brace-close of the text
(when the latter comes after the former), and nothing otherwise.
`charIdxs` collects the indices of a character in order, so the head of
`charIdxs` for the opening brace and the last entry of `charIdxs` for the
closing brace delimit that single greedy match.
-/

/-- Indices (in increasing order) at which character `c` occurs in `cs`. -/
def charIdxs (c : Char) (cs : List Char) : List Nat :=
  (List.range cs.length).filter (fun i => decide ((cs.drop i).head? = some c))

/-- The match list of `re.findall` for the greedy pattern used by the
scripts: a single candidate from the first `\x7b` to the last `\x7d`. -/
def pyFindallBraces (cs : List Char) : List (List Char) :=
  match (charIdxs '\x7b' cs).head?, (charIdxs '\x7d' cs).getLast? with
  | some i, some j => if i < j then [(cs.drop i).take (j + 1 - i)] else []
  | _, _ => []

/-- The candidate loop of `extract_json_from_response`: return the decode of
the first candidate that `json.loads` accepts. -/
def firstValidJson : List (List Char) → Option Json
  | [] => none
  | c :: rest =>
    match jsonLoads c with
    | some j => some j
    | none => firstValidJson rest

/-- Model of `top100.py`'s `extract_json_from_response` (lines 205-228): the
final `raise ValueError` is caught by the function's own `except` clause,
which returns `None`; so the result is an `Option`. -/
def extract_json_from_response (raw : String) : Option Json :=
  firstValidJson (pyFindallBraces raw.toList)

/-- Model of `top100_multi.py`'s `extract_json_from_response` (lines 51-76):
identical candidate scan, but an undecodable text raises `ValueError`. -/
def extract_json_from_response_multi (raw : String) : Except Unit Json :=
  match firstValidJson (pyFindallBraces raw.toList) with
  | some j => Except.ok j
  | none => Except.error ()

/-! ## Model of read_album_data

`top100.py` lines 33-65 (and identically `top100_multi.py` lines 17-49):
each line is stripped, split from the right at the last occurrence of
`" - "` into artist-album and year, and the artist-album part is split at
its first occurrence of `" - "`; lines where either unpacking fails raise
`ValueError` and are skipped.  Python's `rsplit(sep, 1)` / `split(sep, 1)`
are modelled via the list of separator occurrence indices.
-/

structure AlbumEntry where
  artist : String
  album : String
  year : String
deriving DecidableEq

/-- The separator `" - "` used by the album list grammar. -/
def albumSep : List Char := [' ', '-', ' ']

/-- Whitespace characters removed by Python's `str.strip()` (ASCII subset). -/
def isPyWs (c : Char) : Bool :=
  c = ' ' || c = '\t' || c = '\n' || c = '\r' || c = Char.ofNat 11 || c = Char.ofNat 12

/-- Model of Python's `str.strip()`. -/
def pyStrip (cs : List Char) : List Char :=
  ((cs.dropWhile isPyWs).reverse.dropWhile isPyWs).reverse

/-- Starting indices (in increasing order) of the occurrences of `sep` in `cs`. -/
def sepIdxs (sep cs : List Char) : List Nat :=
  (List.range cs.length).filter (fun i => sep.isPrefixOf (cs.drop i))

/-- Model of Python's `s.split(sep, 1)`: split at the leftmost occurrence. -/
def py_split1 (sep cs : List Char) : List (List Char) :=
  match (sepIdxs sep cs).head? with
  | none => [cs]
  | some i => [cs.take i, cs.drop (i + sep.length)]

/-- Model of Python's `s.rsplit(sep, 1)`: split at the rightmost occurrence. -/
def py_rsplit1 (sep cs : List Char) : List (List Char) :=
  match (sepIdxs sep cs).getLast? with
  | none => [cs]
  | some i => [cs.take i, cs.drop (i + sep.length)]

/-- The body of `read_album_data`'s loop for one (already stripped) line:
`none` models the `ValueError` branch that skips the line. -/
def parse_album_line (cs : List Char) : Option AlbumEntry :=
  match py_rsplit1 albumSep cs with
  | [artist_album, year] =>
    match py_split1 albumSep artist_album with
    | [artist, album] => some ⟨String.mk artist, String.mk album, String.mk year⟩
    | _ => none
  | _ => none

/-- Model of `read_album_data` on the file's lines: strip each line, parse
it, and keep successfully parsed entries in input order. -/
def read_album_data (lines : List String) : List AlbumEntry :=
  lines.filterMap (fun l => parse_album_line (pyStrip l.toList))

/-! ## Model of generate_trivia_for_album

`top100.py` lines 230-322 and `top100_multi.py` lines 96-158.  The external
randomness (`random.shuffle` / `random.choice` / `avail.pop()` after a
shuffle) and the external generation capability (`openai.ChatCompletion.create`,
which either returns text or raises) are modelled by an oracle environment:
`pick` selects which available category the k-th random draw lands on, and
`api` gives the outcome of the k-th network call.  Prompt text is data that
does not influence the control flow, so it is not modelled.  The `while`
loop over categories is written with explicit fuel (returning `none` when
the fuel runs out), which makes termination a provable statement rather
than a definitional assumption; fuel `cats.length + 1` is shown adequate.
-/

structure GenEnv where
  api : Nat → Except Unit String
  pick : Nat → Nat

structure GenState where
  bucket : List Json
  used : List String
  calls : Nat
  picks : Nat

/-- The inner `for attempt in range(retries)` loop of one (difficulty,
category) pair: each attempt performs one api call; an exception or an
invalid/empty extraction result consumes the attempt; a successfully
extracted non-empty dict is appended and stops the loop.  Returns the
accepted question (if any) and the updated call counter. -/
def tryAttempts (env : GenEnv) : Nat → Nat → Option Json × Nat
  | 0, calls => (none, calls)
  | r+1, calls =>
    match env.api calls with
    | Except.error _ => tryAttempts env r (calls + 1)
    | Except.ok raw =>
      match extract_json_from_response raw with
      | some (Json.obj (kv :: kvs)) => (some (Json.obj (kv :: kvs)), calls + 1)
      | _ => tryAttempts env r (calls + 1)

/-- The `while len(questions[difficulty]) < 3` loop for one difficulty:
stop at 3 questions, or when no unused category remains; otherwise pick a
random available category, mark it used, run the retry loop, and append
its question on success. -/
def fillBucketFuel (cats : List String) (env : GenEnv) (retries : Nat) :
    Nat → GenState → Option GenState
  | 0, _ => none
  | fuel+1, s =>
    if 3 ≤ s.bucket.length then some s
    else
      match cats.filter (fun c => !(s.used.contains c)) with
      | [] => some s
      | a :: rest =>
        let sel := (a :: rest).getD (env.pick s.picks % (a :: rest).length) a
        match tryAttempts env retries s.calls with
        | (some j, calls2) =>
          fillBucketFuel cats env retries fuel ⟨s.bucket ++ [j], sel :: s.used, calls2, s.picks + 1⟩
        | (none, calls2) =>
          fillBucketFuel cats env retries fuel ⟨s.bucket, sel :: s.used, calls2, s.picks + 1⟩

/-- Model of `generate_trivia_for_album`: the three difficulty buckets are
filled in order easy, medium, hard; the used-category set is reset for each
difficulty while the call and randomness counters persist across them. -/
def generate_trivia_for_album (cats : List String) (env : GenEnv) (retries : Nat) :
    Option (GenState × GenState × GenState) :=
  match fillBucketFuel cats env retries (cats.length + 1) ⟨[], [], 0, 0⟩ with
  | none => none
  | some s1 =>
    match fillBucketFuel cats env retries (cats.length + 1) ⟨[], [], s1.calls, s1.picks⟩ with
    | none => none
    | some s2 =>
      match fillBucketFuel cats env retries (cats.length + 1) ⟨[], [], s2.calls, s2.picks⟩ with
      | none => none
      | some s3 => some (s1, s2, s3)

/-- The 21 question categories of `top100.py` (lines 239-261); the shuffle
only permutes this list, which the `pick` oracle absorbs. -/
def categories_de : List String :=
  ["Erfolge und Chartplatzierungen",
   "Songtexte und Bedeutung",
   "Musikalische Elemente",
   "Produktion und Kollaborationen",
   "Hintergrund und interessante Fakten",
   "Historische und kulturelle Bedeutung",
   "Inspirationsquellen des Künstlers",
   "Live-Auftritte und Touren",
   "Kritiken und Rezeption",
   "Musikvideos und visuelle Inhalte",
   "Fan-Reaktionen und Popkultur-Einflüsse",
   "Albumkonzept und Thematik",
   "Instrumentierung und Produktionstechniken",
   "Bedeutende Auftritte",
   "Reaktionen der Musikpresse",
   "Einfluss auf die Musikszene",
   "Kollaborationen mit anderen Künstlern",
   "Erfolge bei Musikpreisen",
   "Persönliche Erfahrungen des Künstlers",
   "Soziale und politische Relevanz",
   "Musikvideos und visuelle Elemente"]

/-! ## Model of clean_filename

`top100.py` lines 67-83 (identical in `top100_multi.py` lines 78-94):
replace every character outside `[A-Za-z0-9]` with an underscore, then
lower-case; only ASCII letters survive to the lower-casing step. -/

def isAsciiAlnum (c : Char) : Bool :=
  ('A' ≤ c && c ≤ 'Z') || ('a' ≤ c && c ≤ 'z') || ('0' ≤ c && c ≤ '9')

def clean_filename (s : String) : String :=
  String.mk (s.toList.map (fun c => if isAsciiAlnum c then c.toLower else '_'))

/-! ## Model of the cover providers and create_json_format (top100.py)

`top100.py` lines 375-454.  External behavior is an oracle environment:
each provider oracle yields either an exception or an optional URL for a
given (artist, album); `download` gives the success of
`download_and_resize_album_cover` for a (url, path) pair; `gen` gives the
question set produced by `generate_trivia_for_album` for (album, artist,
year) — its internals are modelled separately above, and the store logic
never inspects it.  Crucially, `get_lastfm_album_cover` (lines 112-146) and
`get_discogs_album_cover` (lines 85-110) catch all exceptions internally
and return `None`, while `get_spotify_album_cover` (lines 148-170) has no
handler, so an exception there propagates out of `create_json_format`.

File effects are threaded through the run state: `jsonWrites` records the
successive payloads handed to `write_json_data`, `logWrites` the strings
appended to the missing-cover log (including the header written when the
log file does not yet exist), and `genCalls` the argument triples of the
`generate_trivia_for_album` invocations.  A run ends in `Except.error st`
when an unhandled provider exception aborts it with the effects `st`
already performed. -/

structure QuestionSet where
  easy : List Json
  medium : List Json
  hard : List Json

structure AlbumRecord where
  artist : String
  album : String
  year : String
  coverSrc : Option String
  questions : QuestionSet

structure CreateEnv where
  lastfm : String → String → Except Unit (Option String)
  spotify : String → String → Except Unit (Option String)
  discogs : String → String → Except Unit (Option String)
  download : String → String → Bool
  gen : String → String → String → QuestionSet
  logExists : Bool

structure RunState where
  store : List AlbumRecord
  jsonWrites : List (List AlbumRecord)
  logWrites : List String
  genCalls : List (String × String × String)

/-- Python truthiness of the `cover_url` variable: `None` and the empty
string are falsy. -/
def pyTruthy : Option String → Bool
  | none => false
  | some s => !s.isEmpty

/-- Model of `get_lastfm_album_cover`: every exception is caught and turned
into `None` (lines 127-146). -/
def get_lastfm_album_cover (env : CreateEnv) (artist album : String) : Option String :=
  match env.lastfm artist album with
  | Except.error _ => none
  | Except.ok u => u

/-- Model of `get_discogs_album_cover`: every exception is caught and
turned into `None` (lines 99-110). -/
def get_discogs_album_cover (env : CreateEnv) (artist album : String) : Option String :=
  match env.discogs artist album with
  | Except.error _ => none
  | Except.ok u => u

/-- Model of `get_spotify_album_cover`: there is no exception handler
(lines 148-170), so a raised exception propagates to the caller. -/
def get_spotify_album_cover (env : CreateEnv) (artist album : String) :
    Except Unit (Option String) :=
  env.spotify artist album

/-- The provider chain of `create_json_format` (lines 423-434): Last.fm,
then Spotify, then Discogs, each tried only while `cover_url` is falsy. -/
def resolveCoverUrl (env : CreateEnv) (artist album : String) :
    Except Unit (Option String) :=
  let c1 := get_lastfm_album_cover env artist album
  if pyTruthy c1 then Except.ok c1
  else
    match get_spotify_album_cover env artist album with
    | Except.error e => Except.error e
    | Except.ok c2 =>
      if pyTruthy c2 then Except.ok c2
      else Except.ok (get_discogs_album_cover env artist album)

/-- The log line written by `log_missing_cover` (lines 324-342),
including its trailing newline. -/
def log_missing_cover_line (artist album year ca cb : String) : String :=
  artist ++ " - " ++ album ++ " - " ++ year ++ " - " ++ ca ++ "_" ++ cb ++ ".jpg\n"

/-- The AlbumKey view of a store: the (artist, album) pairs of its records. -/
def storeKeys (store : List AlbumRecord) : List (String × String) :=
  store.map (fun r => (r.artist, r.album))

/-- One iteration of `create_json_format`'s album loop (lines 406-454):
skip an album whose key is already in the store; otherwise resolve a cover
(possibly crashing on an unhandled Spotify exception), download it or log
a missing cover, generate questions, append the record, and persist the
whole store. -/
def processEntry (env : CreateEnv) (coverDir genre : String) (st : RunState)
    (e : AlbumEntry) : Except RunState RunState :=
  if (e.artist, e.album) ∈ storeKeys st.store then Except.ok st
  else
    let ca := clean_filename e.artist
    let cb := clean_filename e.album
    let cover_path := coverDir ++ "/" ++ genre ++ "/" ++ ca ++ "_" ++ cb ++ ".jpg"
    match resolveCoverUrl env e.artist e.album with
    | Except.error _ => Except.error st
    | Except.ok cover_url =>
      let logNeeded : Bool :=
        if pyTruthy cover_url then !(env.download (cover_url.getD "") cover_path) else true
      let logs2 := if logNeeded
        then st.logWrites ++ [log_missing_cover_line e.artist e.album e.year ca cb]
        else st.logWrites
      let questions := env.gen e.album e.artist e.year
      let record : AlbumRecord :=
        ⟨e.artist, e.album, e.year, if pyTruthy cover_url then some cover_path else none,
          questions⟩
      let store2 := st.store ++ [record]
      Except.ok ⟨store2, st.jsonWrites ++ [store2], logs2,
        st.genCalls ++ [(e.album, e.artist, e.year)]⟩

/-- The album loop; a raised exception aborts the remaining albums. -/
def createLoop (env : CreateEnv) (coverDir genre : String) :
    List AlbumEntry → RunState → Except RunState RunState
  | [], st => Except.ok st
  | e :: es, st =>
    match processEntry env coverDir genre st e with
    | Except.error s => Except.error s
    | Except.ok s => createLoop env coverDir genre es s

/-- The run state at the start of `create_json_format`: the store loaded by
`load_existing_json`, no writes or generation calls yet, and the
missing-cover header written when the log file did not exist
(lines 388-394). -/
def initRunState (env : CreateEnv) (loaded : List AlbumRecord) : RunState :=
  ⟨loaded, [], if env.logExists then [] else ["Fehlende Cover:\n"], []⟩

/-- Model of `create_json_format` (lines 375-454), parametrized by the
loaded store; the serialize/load round trip through the JSON file is
taken as the identity. -/
def create_json_format (env : CreateEnv) (coverDir genre : String)
    (album_data : List AlbumEntry) (loaded : List AlbumRecord) : Except RunState RunState :=
  createLoop env coverDir genre album_data (initRunState env loaded)

/-- The effects performed by a run, whether it finished or crashed. -/
def runOut : Except RunState RunState → RunState
  | Except.ok s => s
  | Except.error s => s

/-- The stored records after a run: on a normal exit the final store, on a
crash the records already persisted before it. -/
def runStore (r : Except RunState RunState) : List AlbumRecord :=
  (runOut r).store

/-- A sequence of runs against the same output path: each run loads the
store the previous one left durably written. -/
def runSeq : List (CreateEnv × String × String × List AlbumEntry) →
    List AlbumRecord → List AlbumRecord
  | [], s => s
  | (env, cd, g, inp) :: rs, s =>
    runSeq rs (runStore (create_json_format env cd g inp s))

/-! ## Model of download_and_resize_album_cover

`top100.py` lines 172-203.  The HTTP fetch and the image decode are
oracles; an image is modelled by its PIL colour mode and pixel dimensions,
which is the granularity the function manipulates.  `img.convert('RGB')`
is applied only when the mode is exactly `'RGBA'`; `resize` keeps the mode
and sets the dimensions; Pillow's JPEG encoder accepts only the raw modes
`1`, `L`, `RGB`, `RGBX`, `CMYK`, `YCbCr` and raises for every other mode
(which the function's `except` clause converts into a `False` return).
The result records the returned flag and the file written, if any. -/

structure Img where
  mode : String
  width : Nat
  height : Nat
deriving DecidableEq

structure ImgEnv where
  fetch : String → Except Unit (Nat × Except Unit Img)

/-- Colour modes Pillow can encode as JPEG without conversion. -/
def jpegWritable (mode : String) : Bool :=
  mode = "1" || mode = "L" || mode = "RGB" || mode = "RGBX" ||
  mode = "CMYK" || mode = "YCbCr"

/-- Model of `img.convert('RGB')`. -/
def convertRGB (img : Img) : Img :=
  ⟨"RGB", img.width, img.height⟩

/-- Model of `img.resize(size, LANCZOS)`: the resampling filter does not
affect mode or dimensions. -/
def resizeImg (img : Img) (size : Nat × Nat) : Img :=
  ⟨img.mode, size.1, size.2⟩

/-- Model of `download_and_resize_album_cover`: returns the Python return
value together with the image file written to `save_path`, if any. -/
def download_and_resize_album_cover (env : ImgEnv) (cover_url save_path : String)
    (size : Nat × Nat) : Bool × Option (String × Img) :=
  match env.fetch cover_url with
  | Except.error _ => (false, none)
  | Except.ok (status, decoded) =>
    if status = 200 then
      match decoded with
      | Except.error _ => (false, none)
      | Except.ok img =>
        let img1 := if img.mode = "RGBA" then convertRGB img else img
        let img2 := resizeImg img1 size
        if jpegWritable img2.mode then (true, some (save_path, img2))
        else (false, none)
    else (false, none)

/-! ## Concrete oracle environments used to evaluate the models -/

/-- A generation environment whose api call always raises. -/
def failGenEnv : GenEnv :=
  ⟨fun _ => Except.error (), fun _ => 0⟩

/-- A pipeline environment where every cover provider returns no URL. -/
def envAllNone : CreateEnv :=
  ⟨fun _ _ => Except.ok none, fun _ _ => Except.ok none, fun _ _ => Except.ok none,
   fun _ _ => true, fun _ _ _ => ⟨[], [], []⟩, true⟩

/-- A pipeline environment where Last.fm finds nothing, the Spotify call
raises, and Discogs would return a URL. -/
def envC6 : CreateEnv :=
  ⟨fun _ _ => Except.ok none, fun _ _ => Except.error (), fun _ _ => Except.ok (some "u3"),
   fun _ _ => true, fun _ _ _ => ⟨[], [], []⟩, true⟩

/-- A pipeline environment where only Discogs returns a URL. -/
def envDiscogsOnly : CreateEnv :=
  ⟨fun _ _ => Except.ok none, fun _ _ => Except.ok none, fun _ _ => Except.ok (some "u3"),
   fun _ _ => true, fun _ _ _ => ⟨[], [], []⟩, true⟩

/-- An image environment serving a palette-mode image with status 200. -/
def envPaletteImg : ImgEnv :=
  ⟨fun _ => Except.ok (200, Except.ok ⟨"P", 640, 480⟩)⟩

/-- An image environment serving an RGBA image with status 200. -/
def envRgbaImg : ImgEnv :=
  ⟨fun _ => Except.ok (200, Except.ok ⟨"RGBA", 640, 480⟩)⟩

/-! ## Lemmas about occurrence-index lists

Both the separator model of `read_album_data` and the greedy-match model of
`extract_json_from_response` are phrased via `(List.range n).filter p`;
these lemmas characterize membership, the head as the least index and the
last element as the greatest index of such lists. -/

theorem isPrefixOf_eq_true_iff {p l : List Char} :
    p.isPrefixOf l = true ↔ ∃ t, p ++ t = l :=
  List.isPrefixOf_iff_prefix

theorem filterRange_pairwise (n : Nat) (p : Nat → Bool) :
    ((List.range n).filter p).Pairwise (· < ·) :=
  List.Pairwise.sublist (List.filter_sublist _) (List.pairwise_lt_range n)

theorem mem_filterRange {n k : Nat} {p : Nat → Bool} :
    k ∈ (List.range n).filter p ↔ p k = true ∧ k < n := by
  rw [List.mem_filter, List.mem_range, and_comm]

theorem pairwise_head?_le {l : List Nat} (hp : l.Pairwise (· < ·)) {h x : Nat}
    (hh : l.head? = some h) (hx : x ∈ l) : h ≤ x := by
  cases l with
  | nil => cases hx
  | cons a t =>
    injection hh with hh
    subst hh
    rcases List.mem_cons.mp hx with rfl | hmem
    · exact Nat.le_refl x
    · exact Nat.le_of_lt ((List.pairwise_cons.mp hp).1 x hmem)

theorem pairwise_le_getLast? {l : List Nat} (hp : l.Pairwise (· < ·)) {m x : Nat}
    (hm : l.getLast? = some m) (hx : x ∈ l) : x ≤ m := by
  induction l with
  | nil => cases hx
  | cons a t ih =>
    cases t with
    | nil =>
      rcases List.mem_cons.mp hx with rfl | hmem
      · simp [List.getLast?] at hm
        omega
      · cases hmem
    | cons b t' =>
      rw [List.getLast?_cons_cons] at hm
      rcases List.mem_cons.mp hx with rfl | hmem
      · have hmmem : m ∈ b :: t' := List.mem_of_mem_getLast? hm
        exact Nat.le_of_lt ((List.pairwise_cons.mp hp).1 m hmmem)
      · exact ih (List.pairwise_cons.mp hp).2 hm hmem

theorem filterRange_getLast?_spec {n : Nat} {p : Nat → Bool} {k : Nat}
    (hk : p k = true) (hkn : k < n) :
    ∃ m, ((List.range n).filter p).getLast? = some m ∧ p m = true ∧ m < n ∧
      ∀ x, p x = true → x < n → x ≤ m := by
  have hkmem : k ∈ (List.range n).filter p := mem_filterRange.mpr ⟨hk, hkn⟩
  have hne : (List.range n).filter p ≠ [] := fun h => by simp [h] at hkmem
  refine ⟨((List.range n).filter p).getLast hne, List.getLast?_eq_getLast_of_ne_nil hne, ?_, ?_, ?_⟩
  · exact (mem_filterRange.mp (List.getLast_mem hne)).1
  · exact (mem_filterRange.mp (List.getLast_mem hne)).2
  · intro x hx hxn
    exact pairwise_le_getLast? (filterRange_pairwise n p)
      (List.getLast?_eq_getLast_of_ne_nil hne) (mem_filterRange.mpr ⟨hx, hxn⟩)

theorem filterRange_head?_spec {n : Nat} {p : Nat → Bool} {k : Nat}
    (hk : p k = true) (hkn : k < n) :
    ∃ m, ((List.range n).filter p).head? = some m ∧ p m = true ∧ m < n ∧
      ∀ x, p x = true → x < n → m ≤ x := by
  have hkmem : k ∈ (List.range n).filter p := mem_filterRange.mpr ⟨hk, hkn⟩
  have hne : (List.range n).filter p ≠ [] := fun h => by simp [h] at hkmem
  refine ⟨((List.range n).filter p).head hne, List.head?_eq_head hne, ?_, ?_, ?_⟩
  · exact (mem_filterRange.mp (List.head_mem hne)).1
  · exact (mem_filterRange.mp (List.head_mem hne)).2
  · intro x hx hxn
    exact pairwise_head?_le (filterRange_pairwise n p)
      (List.head?_eq_head hne) (mem_filterRange.mpr ⟨hx, hxn⟩)

theorem occ_add_length_le {sep cs : List Char} {k : Nat} (hsep : 0 < sep.length)
    (h : sep.isPrefixOf (cs.drop k) = true) : k + sep.length ≤ cs.length := by
  obtain ⟨t, ht⟩ := isPrefixOf_eq_true_iff.mp h
  have hlen := congrArg List.length ht
  simp only [List.length_append, List.length_drop] at hlen
  omega

theorem occ_take_of_occ {sep cs : List Char} {k r : Nat}
    (h : sep.isPrefixOf (cs.drop k) = true) (hkr : k + sep.length ≤ r) :
    sep.isPrefixOf ((cs.take r).drop k) = true := by
  obtain ⟨t, ht⟩ := isPrefixOf_eq_true_iff.mp h
  apply isPrefixOf_eq_true_iff.mpr
  refine ⟨t.take (r - k - sep.length), ?_⟩
  have h1 : List.take (r - k) sep = sep := List.take_of_length_le (by omega)
  rw [List.drop_take, ← ht, List.take_append_eq_append_take, h1]

theorem occ_of_occ_take {sep cs : List Char} {k r : Nat}
    (h : sep.isPrefixOf ((cs.take r).drop k) = true) :
    sep.isPrefixOf (cs.drop k) = true := by
  obtain ⟨t, ht⟩ := isPrefixOf_eq_true_iff.mp h
  rw [List.drop_take] at ht
  apply isPrefixOf_eq_true_iff.mpr
  refine ⟨t ++ (cs.drop k).drop (r - k), ?_⟩
  rw [← List.append_assoc, ht, List.take_append_drop]

theorem py_rsplit1_eq_of_getLast? {sep cs : List Char} {r : Nat}
    (hr : (sepIdxs sep cs).getLast? = some r) :
    py_rsplit1 sep cs = [cs.take r, cs.drop (r + sep.length)] := by
  unfold py_rsplit1
  rw [hr]

theorem py_split1_eq_of_head? {sep cs : List Char} {f : Nat}
    (hf : (sepIdxs sep cs).head? = some f) :
    py_split1 sep cs = [cs.take f, cs.drop (f + sep.length)] := by
  unfold py_split1
  rw [hf]

/-- Characterization of a successful line parse: when the (stripped) line
has two disjoint separator occurrences, `rsplit` cuts at the greatest
occurrence `r` (the year) and `split` cuts the remainder at its least
occurrence `f` (artist from album). -/
theorem parse_album_line_spec {cs : List Char} {i j : Nat}
    (hi : albumSep.isPrefixOf (cs.drop i) = true)
    (hj : albumSep.isPrefixOf (cs.drop j) = true)
    (hij : i + 3 ≤ j) :
    ∃ r f,
      albumSep.isPrefixOf (cs.drop r) = true ∧
      (∀ k, albumSep.isPrefixOf (cs.drop k) = true → k ≤ r) ∧
      albumSep.isPrefixOf ((cs.take r).drop f) = true ∧
      (∀ k, albumSep.isPrefixOf ((cs.take r).drop k) = true → f ≤ k) ∧
      parse_album_line cs =
        some ⟨String.mk ((cs.take r).take f), String.mk ((cs.take r).drop (f + 3)),
          String.mk (cs.drop (r + 3))⟩ := by
  have hsep : (0 : Nat) < albumSep.length := by decide
  have hal : albumSep.length = 3 := rfl
  have hjlen := occ_add_length_le hsep hj
  obtain ⟨r, hrlast, hrocc, hrlt, hrmax⟩ :=
    @filterRange_getLast?_spec cs.length
      (fun k => albumSep.isPrefixOf (cs.drop k)) j hj (by omega)
  have hjr : j ≤ r := hrmax j hj (by omega)
  have hir : i + albumSep.length ≤ r := by omega
  have hitake : albumSep.isPrefixOf ((cs.take r).drop i) = true := occ_take_of_occ hi hir
  have hitakelen := occ_add_length_le hsep hitake
  obtain ⟨f, hfhead, hfocc, hflt, hfmin⟩ :=
    @filterRange_head?_spec (cs.take r).length
      (fun k => albumSep.isPrefixOf ((cs.take r).drop k)) i hitake (by omega)
  refine ⟨r, f, hrocc, ?_, hfocc, ?_, ?_⟩
  · intro k hk
    exact hrmax k hk (by have := occ_add_length_le hsep hk; omega)
  · intro k hk
    exact hfmin k hk (by have := occ_add_length_le hsep hk; omega)
  · have h1 : py_rsplit1 albumSep cs = [cs.take r, cs.drop (r + albumSep.length)] :=
      py_rsplit1_eq_of_getLast? hrlast
    have h2 : py_split1 albumSep (cs.take r) =
        [(cs.take r).take f, (cs.take r).drop (f + albumSep.length)] :=
      py_split1_eq_of_head? hfhead
    rw [hal] at h1 h2
    simp [parse_album_line, h1, h2]

/-- A line (after stripping) without two disjoint separator occurrences is
skipped: either `rsplit` has nothing to cut, or the remainder contains no
further separator, so tuple unpacking raises and the line is dropped. -/
theorem parse_album_line_none {cs : List Char}
    (hno : ¬ ∃ i j, albumSep.isPrefixOf (cs.drop i) = true ∧
      albumSep.isPrefixOf (cs.drop j) = true ∧ i + 3 ≤ j) :
    parse_album_line cs = none := by
  have hsep : (0 : Nat) < albumSep.length := by decide
  have hal : albumSep.length = 3 := rfl
  by_cases hex : ∃ k, albumSep.isPrefixOf (cs.drop k) = true
  · obtain ⟨k0, hk0⟩ := hex
    have hk0len := occ_add_length_le hsep hk0
    obtain ⟨r, hrlast, hrocc, hrlt, hrmax⟩ :=
      @filterRange_getLast?_spec cs.length
        (fun k => albumSep.isPrefixOf (cs.drop k)) k0 hk0 (by omega)
    have h1 : py_rsplit1 albumSep cs = [cs.take r, cs.drop (r + albumSep.length)] :=
      py_rsplit1_eq_of_getLast? hrlast
    have hempty : sepIdxs albumSep (cs.take r) = [] := by
      cases hcase : sepIdxs albumSep (cs.take r) with
      | nil => rfl
      | cons a t =>
        exfalso
        have hamem : a ∈ sepIdxs albumSep (cs.take r) := by
          rw [hcase]; exact List.mem_cons_self a t
        have ha := (mem_filterRange.mp hamem).1
        have halen := occ_add_length_le hsep ha
        have hminr : (cs.take r).length ≤ r := by
          rw [List.length_take]; exact inf_le_left
        exact hno ⟨a, r, occ_of_occ_take ha, hrocc, by omega⟩
    have h2 : py_split1 albumSep (cs.take r) = [cs.take r] := by
      simp [py_split1, hempty]
    simp [parse_album_line, h1, h2]
  · have hempty : sepIdxs albumSep cs = [] := by
      cases hcase : sepIdxs albumSep cs with
      | nil => rfl
      | cons a t =>
        have hamem : a ∈ sepIdxs albumSep cs := by
          rw [hcase]; exact List.mem_cons_self a t
        exact absurd ⟨a, (mem_filterRange.mp hamem).1⟩ hex
    simp [parse_album_line, py_rsplit1, hempty]

/-- When `i` is the least index carrying character `c`, it is the head of
`charIdxs c s`. -/
theorem charIdxs_head?_eq {s : List Char} {c : Char} {i : Nat}
    (hocc : (s.drop i).head? = some c)
    (hmin : ∀ k, (s.drop k).head? = some c → i ≤ k) :
    (charIdxs c s).head? = some i := by
  have hlen : i < s.length := by
    have hne : s.drop i ≠ [] := by intro h; rw [h] at hocc; cases hocc
    have := List.length_pos.mpr hne
    rw [List.length_drop] at this
    omega
  obtain ⟨m, hhead, hm, hmlt, hmmin⟩ :=
    @filterRange_head?_spec s.length
      (fun k => decide ((s.drop k).head? = some c)) i (by simpa using hocc) hlen
  have h1 : i ≤ m := hmin m (by simpa using hm)
  have h2 : m ≤ i := hmmin i (by simpa using hocc) hlen
  have hmi : m = i := Nat.le_antisymm h2 h1
  rw [← hmi]
  exact hhead

/-- When `j` is the greatest index carrying character `c`, it is the last
element of `charIdxs c s`. -/
theorem charIdxs_getLast?_eq {s : List Char} {c : Char} {j : Nat}
    (hocc : (s.drop j).head? = some c)
    (hmax : ∀ k, (s.drop k).head? = some c → k ≤ j) :
    (charIdxs c s).getLast? = some j := by
  have hlen : j < s.length := by
    have hne : s.drop j ≠ [] := by intro h; rw [h] at hocc; cases hocc
    have := List.length_pos.mpr hne
    rw [List.length_drop] at this
    omega
  obtain ⟨m, hlast, hm, hmlt, hmmax⟩ :=
    @filterRange_getLast?_spec s.length
      (fun k => decide ((s.drop k).head? = some c)) j (by simpa using hocc) hlen
  have h1 : m ≤ j := hmax m (by simpa using hm)
  have h2 : j ≤ m := hmmax j (by simpa using hocc) hlen
  have hmj : m = j := Nat.le_antisymm h1 h2
  rw [← hmj]
  exact hlast

theorem firstValidJson_singleton (c : List Char) : firstValidJson [c] = jsonLoads c := by
  cases h : jsonLoads c <;> simp [firstValidJson, h]

theorem toList_mk (l : List Char) : (String.mk l).toList = l := rfl

/-! ## Lemmas about the generation loop -/

theorem getD_mem_of_default_mem {l : List String} {n : Nat} {d : String}
    (hd : d ∈ l) : l.getD n d ∈ l := by
  rw [List.getD_eq_getElem?_getD]
  cases h : l[n]? with
  | none => simpa using hd
  | some x => simpa using List.getElem?_mem h

/-- With a generation capability that fails on every call, a retry loop of
`r` attempts performs exactly `r` calls and yields no question. -/
theorem tryAttempts_fail {env : GenEnv} (hfail : ∀ k, env.api k = Except.error ()) :
    ∀ r c : Nat, tryAttempts env r c = (none, c + r) := by
  intro r
  induction r with
  | zero => intro c; simp [tryAttempts]
  | succ n ih =>
    intro c
    rw [tryAttempts, hfail c]
    rw [ih (c + 1)]
    have : c + 1 + n = c + (n + 1) := by omega
    rw [this]

/-- Marking an available category as used strictly shrinks the set of
available categories. -/
theorem filter_cons_used_lt {cats used : List String} {sel : String}
    (hsel : sel ∈ cats.filter (fun c => !(used.contains c))) :
    (cats.filter (fun c => !((sel :: used).contains c))).length <
      (cats.filter (fun c => !(used.contains c))).length := by
  have heq : cats.filter (fun c => !((sel :: used).contains c)) =
      (cats.filter (fun c => !(used.contains c))).filter (fun c => !(c == sel)) := by
    rw [List.filter_filter]
    apply List.filter_congr
    intro a _
    rw [List.contains_cons, Bool.not_or]
  rw [heq]
  exact List.length_filter_lt_length_iff_exists.mpr ⟨sel, hsel, by simp⟩

/-- Fuel adequacy: the per-difficulty loop finishes within as many
iterations as there are available categories. -/
theorem fillBucketFuel_isSome {cats : List String} {env : GenEnv} {retries : Nat} :
    ∀ (fuel : Nat) (s : GenState),
      (cats.filter (fun c => !(s.used.contains c))).length < fuel →
      (fillBucketFuel cats env retries fuel s).isSome = true := by
  intro fuel
  induction fuel with
  | zero => intro s h; omega
  | succ n ih =>
    intro s h
    rw [fillBucketFuel]
    split
    · rfl
    · split
      · rfl
      · next a rest hfil =>
        have hselmem : (a :: rest).getD (env.pick s.picks % (a :: rest).length) a ∈
            cats.filter (fun c => !(s.used.contains c)) := by
          rw [hfil]
          exact getD_mem_of_default_mem (List.mem_cons_self a rest)
        have hdec := filter_cons_used_lt hselmem
        split
        · apply ih
          dsimp only
          omega
        · apply ih
          dsimp only
          omega

/-- Beyond the adequate fuel, the result of the per-difficulty loop no
longer depends on the fuel: the loop has genuinely terminated. -/
theorem fillBucketFuel_stable {cats : List String} {env : GenEnv} {retries : Nat} :
    ∀ (f : Nat) (s : GenState) (g : Nat),
      (cats.filter (fun c => !(s.used.contains c))).length < f → f ≤ g →
      fillBucketFuel cats env retries g s = fillBucketFuel cats env retries f s := by
  intro f
  induction f with
  | zero => intro s g h _; omega
  | succ n ih =>
    intro s g h hfg
    cases g with
    | zero => omega
    | succ m =>
      simp only [fillBucketFuel]
      split
      · rfl
      · split
        · rfl
        · next a rest hfil =>
          have hselmem : (a :: rest).getD (env.pick s.picks % (a :: rest).length) a ∈
              cats.filter (fun c => !(s.used.contains c)) := by
            rw [hfil]
            exact getD_mem_of_default_mem (List.mem_cons_self a rest)
          have hdec := filter_cons_used_lt hselmem
          split
          · apply ih
            · dsimp only; omega
            · omega
          · apply ih
            · dsimp only; omega
            · omega

/-- Invariant of the per-difficulty loop: the bucket never exceeds 3
questions, and it ends below 3 only when every category of the pool has
been marked used. -/
theorem fillBucketFuel_bucket_spec {cats : List String} {env : GenEnv} {retries : Nat} :
    ∀ (fuel : Nat) (s out : GenState),
      fillBucketFuel cats env retries fuel s = some out →
      s.bucket.length ≤ 3 →
      out.bucket.length ≤ 3 ∧ (out.bucket.length < 3 → ∀ c ∈ cats, c ∈ out.used) := by
  intro fuel
  induction fuel with
  | zero => intro s out h _; simp [fillBucketFuel] at h
  | succ n ih =>
    intro s out h hle
    rw [fillBucketFuel] at h
    split at h
    · next h3 =>
      cases h
      exact ⟨hle, fun hlt => absurd h3 (by omega)⟩
    · next h3 =>
      split at h
      · next hfil =>
        cases h
        refine ⟨hle, fun _ c hc => ?_⟩
        have h2 := List.filter_eq_nil_iff.mp hfil c hc
        simp at h2
        exact h2
      · next a rest hfil =>
        split at h
        · refine ih _ _ h ?_
          dsimp only
          rw [List.length_append]
          simp only [List.length_cons, List.length_nil]
          omega
        · refine ih _ _ h ?_
          dsimp only
          exact hle

/-- With an always-failing generation capability, one iteration of the
category loop performs its three attempts, leaves the bucket unchanged,
marks one more category used, and continues with the next category. -/
theorem fillBucketFuel_fail_step {cats : List String} {env : GenEnv}
    (hfail : ∀ k, env.api k = Except.error ()) (fuel : Nat) (s : GenState)
    (h3 : ¬ 3 ≤ s.bucket.length) {a : String} {rest : List String}
    (hfil : cats.filter (fun c => !(s.used.contains c)) = a :: rest) :
    ∃ sel ∈ cats.filter (fun c => !(s.used.contains c)),
      fillBucketFuel cats env 3 (fuel + 1) s =
        fillBucketFuel cats env 3 fuel ⟨s.bucket, sel :: s.used, s.calls + 3, s.picks + 1⟩ := by
  refine ⟨(a :: rest).getD (env.pick s.picks % (a :: rest).length) a, ?_, ?_⟩
  · rw [hfil]
    exact getD_mem_of_default_mem (List.mem_cons_self a rest)
  · rw [fillBucketFuel, if_neg h3, hfil]
    dsimp only
    rw [tryAttempts_fail hfail]

/-- The whole generation routine terminates for every oracle behavior. -/
theorem generate_trivia_for_album_isSome (cats : List String) (env : GenEnv) (retries : Nat) :
    (generate_trivia_for_album cats env retries).isSome = true := by
  unfold generate_trivia_for_album
  have key : ∀ calls picks : Nat,
      (fillBucketFuel cats env retries (cats.length + 1) ⟨[], [], calls, picks⟩).isSome = true := by
    intro calls picks
    apply fillBucketFuel_isSome
    dsimp only
    have := List.length_filter_le (fun c => !(([] : List String).contains c)) cats
    omega
  obtain ⟨s1, hs1⟩ := Option.isSome_iff_exists.mp (key 0 0)
  rw [hs1]
  dsimp only
  obtain ⟨s2, hs2⟩ := Option.isSome_iff_exists.mp (key s1.calls s1.picks)
  rw [hs2]
  dsimp only
  obtain ⟨s3, hs3⟩ := Option.isSome_iff_exists.mp (key s2.calls s2.picks)
  rw [hs3]
  rfl

/-! ## Lemmas about the store pipeline -/

theorem storeKeys_append (a b : List AlbumRecord) :
    storeKeys (a ++ b) = storeKeys a ++ storeKeys b :=
  List.map_append _ a b

/-- An album whose key is already stored is skipped with no effect. -/
theorem processEntry_skip {env : CreateEnv} {cd g : String} {st : RunState} {e : AlbumEntry}
    (h : (e.artist, e.album) ∈ storeKeys st.store) :
    processEntry env cd g st e = Except.ok st := by
  simp [processEntry, h]

/-- Case analysis of one loop iteration: skip, crash before any effect, or
append exactly one record carrying the album's key together with one
persistence write and one generation call. -/
theorem processEntry_cases (env : CreateEnv) (cd g : String) (st : RunState) (e : AlbumEntry) :
    ((e.artist, e.album) ∈ storeKeys st.store ∧ processEntry env cd g st e = Except.ok st) ∨
    ((e.artist, e.album) ∉ storeKeys st.store ∧ processEntry env cd g st e = Except.error st) ∨
    ((e.artist, e.album) ∉ storeKeys st.store ∧ ∃ (r : AlbumRecord) (s2 : RunState),
      r.artist = e.artist ∧ r.album = e.album ∧
      s2.store = st.store ++ [r] ∧
      s2.jsonWrites = st.jsonWrites ++ [st.store ++ [r]] ∧
      s2.genCalls = st.genCalls ++ [(e.album, e.artist, e.year)] ∧
      processEntry env cd g st e = Except.ok s2) := by
  by_cases hmem : (e.artist, e.album) ∈ storeKeys st.store
  · exact Or.inl ⟨hmem, processEntry_skip hmem⟩
  · cases hres : resolveCoverUrl env e.artist e.album with
    | error u =>
      refine Or.inr (Or.inl ⟨hmem, ?_⟩)
      unfold processEntry
      rw [if_neg hmem]
      dsimp only
      rw [hres]
    | ok cu =>
      refine Or.inr (Or.inr ⟨hmem, ?_⟩)
      unfold processEntry
      rw [if_neg hmem]
      dsimp only
      rw [hres]
      dsimp only
      exact ⟨_, _, rfl, rfl, rfl, rfl, rfl, rfl⟩

/-- The invariant of C1: a duplicate-free store stays duplicate-free
through a whole run, crashed or completed. -/
theorem createLoop_nodup {env : CreateEnv} {cd g : String} :
    ∀ (es : List AlbumEntry) (st : RunState),
      (storeKeys st.store).Nodup →
      (storeKeys (runOut (createLoop env cd g es st)).store).Nodup := by
  intro es
  induction es with
  | nil => intro st h; exact h
  | cons e es ih =>
    intro st h
    rcases processEntry_cases env cd g st e with ⟨_, hok⟩ | ⟨_, herr⟩ |
      ⟨hmem, r, s2, hra, hrb, hs2store, _, _, hok⟩
    · simp only [createLoop, hok]
      exact ih st h
    · simp only [createLoop, herr]
      exact h
    · simp only [createLoop, hok]
      apply ih
      rw [hs2store, storeKeys_append, List.nodup_append]
      refine ⟨h, by simp [storeKeys], ?_⟩
      intro x hx hx2
      simp [storeKeys] at hx2
      rw [hx2, hra, hrb] at hx
      exact hmem hx

/-- A run only ever appends to the loaded store, so every loaded record
survives unchanged at its original position. -/
theorem createLoop_prefix {env : CreateEnv} {cd g : String} :
    ∀ (es : List AlbumEntry) (st : RunState),
      ∃ tail, (runOut (createLoop env cd g es st)).store = st.store ++ tail := by
  intro es
  induction es with
  | nil => intro st; exact ⟨[], by simp [createLoop, runOut]⟩
  | cons e es ih =>
    intro st
    rcases processEntry_cases env cd g st e with ⟨_, hok⟩ | ⟨_, herr⟩ |
      ⟨hmem, r, s2, hra, hrb, hs2store, _, _, hok⟩
    · simp only [createLoop, hok]
      exact ih st
    · simp only [createLoop, herr]
      exact ⟨[], by simp [runOut]⟩
    · simp only [createLoop, hok]
      obtain ⟨tail, htail⟩ := ih s2
      exact ⟨[r] ++ tail, by rw [htail, hs2store, List.append_assoc]⟩

/-- No generation call ever carries the key of an album that is already in
the store when the run starts. -/
theorem createLoop_genCalls {env : CreateEnv} {cd g : String} {a b : String} :
    ∀ (es : List AlbumEntry) (st : RunState),
      (a, b) ∈ storeKeys st.store →
      (∀ t ∈ st.genCalls, ¬(t.2.1 = a ∧ t.1 = b)) →
      ∀ t ∈ (runOut (createLoop env cd g es st)).genCalls, ¬(t.2.1 = a ∧ t.1 = b) := by
  intro es
  induction es with
  | nil => intro st hkey hcalls; exact hcalls
  | cons e es ih =>
    intro st hkey hcalls
    rcases processEntry_cases env cd g st e with ⟨_, hok⟩ | ⟨_, herr⟩ |
      ⟨hmem, r, s2, hra, hrb, hs2store, _, hs2gen, hok⟩
    · simp only [createLoop, hok]
      exact ih st hkey hcalls
    · simp only [createLoop, herr]
      exact hcalls
    · simp only [createLoop, hok]
      apply ih
      · rw [hs2store, storeKeys_append]
        exact List.mem_append_left _ hkey
      · rw [hs2gen]
        intro t ht
        rcases List.mem_append.mp ht with h1 | h2
        · exact hcalls t h1
        · simp only [List.mem_singleton] at h2
          subst h2
          dsimp only
          rintro ⟨h3, h4⟩
          exact hmem (by rw [h3, h4]; exact hkey)

/-- When every input album is already stored, the loop is a no-op. -/
theorem createLoop_all_present {env : CreateEnv} {cd g : String} :
    ∀ (es : List AlbumEntry) (st : RunState),
      (∀ e ∈ es, (e.artist, e.album) ∈ storeKeys st.store) →
      createLoop env cd g es st = Except.ok st := by
  intro es
  induction es with
  | nil => intro st _; rfl
  | cons e es ih =>
    intro st h
    rw [createLoop, processEntry_skip (h e (List.mem_cons_self e es))]
    exact ih st (fun x hx => h x (List.mem_cons_of_mem e hx))

/-! ## The claims -/

/-- C1: starting from a store with pairwise-distinct (artist, album) keys,
any run of create_json_format — and any sequence of such runs against the
same output path — leaves the store duplicate-free; an album whose key is
already stored is skipped with no effect, and a processed album appends
its key exactly once. -/
theorem c1_store_uniqueness :
    (∀ (runs : List (CreateEnv × String × String × List AlbumEntry))
       (store : List AlbumRecord),
      (storeKeys store).Nodup → (storeKeys (runSeq runs store)).Nodup) ∧
    (∀ (env : CreateEnv) (cd g : String) (st : RunState) (e : AlbumEntry),
      (e.artist, e.album) ∈ storeKeys st.store → processEntry env cd g st e = Except.ok st) ∧
    (∀ (env : CreateEnv) (cd g : String) (st : RunState) (e : AlbumEntry),
      (e.artist, e.album) ∉ storeKeys st.store →
      storeKeys (runOut (processEntry env cd g st e)).store = storeKeys st.store ∨
      storeKeys (runOut (processEntry env cd g st e)).store =
        storeKeys st.store ++ [(e.artist, e.album)]) := by
  refine ⟨?_, ?_, ?_⟩
  · intro runs
    induction runs with
    | nil => intro store h; exact h
    | cons p rs ih =>
      intro store h
      obtain ⟨env, cd, g, inp⟩ := p
      exact ih _ (createLoop_nodup inp _ h)
  · intro env cd g st e h
    exact processEntry_skip h
  · intro env cd g st e hmem
    rcases processEntry_cases env cd g st e with ⟨hin, _⟩ | ⟨_, herr⟩ |
      ⟨_, r, s2, hra, hrb, hs2store, _, _, hok⟩
    · exact absurd hin hmem
    · rw [herr]
      exact Or.inl rfl
    · rw [hok]
      refine Or.inr ?_
      show storeKeys s2.store = storeKeys st.store ++ [(e.artist, e.album)]
      rw [hs2store, storeKeys_append]
      simp [storeKeys, hra, hrb]

/-- Witness for C1 at a concrete run against an initially empty store. -/
theorem c1_store_uniqueness_witness :
    (storeKeys ([] : List AlbumRecord)).Nodup ∧
    (storeKeys (runSeq [(envAllNone, "bandcover", "rock", [⟨"a", "b", "1999"⟩])] [])).Nodup :=
  ⟨by simp [storeKeys], c1_store_uniqueness.1 _ [] (by simp [storeKeys])⟩

/-- C2: an album key already present in the loaded store generates no
generation call during the run; every loaded record survives unchanged
(the run only appends); and when every input album is already stored the
run performs no persistence writes and no generation calls at all, leaving
the store exactly as loaded. -/
theorem c2_resumability :
    (∀ (env : CreateEnv) (cd g : String) (input : List AlbumEntry)
       (loaded : List AlbumRecord) (a b : String),
      (a, b) ∈ storeKeys loaded →
      ∀ t ∈ (runOut (create_json_format env cd g input loaded)).genCalls,
        ¬(t.2.1 = a ∧ t.1 = b)) ∧
    (∀ (env : CreateEnv) (cd g : String) (input : List AlbumEntry)
       (loaded : List AlbumRecord),
      ∃ tail, runStore (create_json_format env cd g input loaded) = loaded ++ tail) ∧
    (∀ (env : CreateEnv) (cd g : String) (input : List AlbumEntry)
       (loaded : List AlbumRecord),
      (∀ e ∈ input, (e.artist, e.album) ∈ storeKeys loaded) →
      create_json_format env cd g input loaded =
        Except.ok ⟨loaded, [], if env.logExists then [] else ["Fehlende Cover:\n"], []⟩) := by
  refine ⟨?_, ?_, ?_⟩
  · intro env cd g input loaded a b hkey
    exact createLoop_genCalls input (initRunState env loaded) hkey
      (fun t ht => by simp [initRunState] at ht)
  · intro env cd g input loaded
    exact createLoop_prefix input (initRunState env loaded)
  · intro env cd g input loaded h
    exact createLoop_all_present input (initRunState env loaded) h

/-- Witness for C2: rerunning on an input whose single album is already
stored leaves the store as loaded, with no writes and no generation calls. -/
theorem c2_resumability_witness :
    create_json_format envAllNone "bandcover" "rock" [⟨"a", "b", "1999"⟩]
        [⟨"a", "b", "1999", none, ⟨[], [], []⟩⟩] =
      Except.ok ⟨[⟨"a", "b", "1999", none, ⟨[], [], []⟩⟩], [], [], []⟩ :=
  c2_resumability.2.2 envAllNone "bandcover" "rock" [⟨"a", "b", "1999"⟩]
    [⟨"a", "b", "1999", none, ⟨[], [], []⟩⟩]
    (by intro e he; simp at he; subst he; simp [storeKeys])

/-- C3 (amended): the regex scan yields a single greedy candidate running
from the first opening brace to the last closing brace, and extraction
returns the decode of that candidate — not of the first decodable
brace-delimited substring in order of appearance. -/
theorem c3_greedy_extraction :
    ∀ (s : List Char) (i j : Nat),
      (s.drop i).head? = some '\x7b' →
      (∀ k, k < s.length → (s.drop k).head? = some '\x7b' → i ≤ k) →
      (s.drop j).head? = some '\x7d' →
      (∀ k, k < s.length → (s.drop k).head? = some '\x7d' → k ≤ j) →
      i < j →
      pyFindallBraces s = [(s.drop i).take (j + 1 - i)] ∧
      extract_json_from_response (String.mk s) = jsonLoads ((s.drop i).take (j + 1 - i)) := by
  intro s i j hi himin hj hjmax hij
  have hbound : ∀ (k : Nat) (c : Char), (s.drop k).head? = some c → k < s.length := by
    intro k c hk
    have hne : s.drop k ≠ [] := by intro h; rw [h] at hk; cases hk
    have := List.length_pos.mpr hne
    rw [List.length_drop] at this
    omega
  have h1 : (charIdxs '\x7b' s).head? = some i :=
    charIdxs_head?_eq hi (fun k hk => himin k (hbound k _ hk) hk)
  have h2 : (charIdxs '\x7d' s).getLast? = some j :=
    charIdxs_getLast?_eq hj (fun k hk => hjmax k (hbound k _ hk) hk)
  have hfind : pyFindallBraces s = [(s.drop i).take (j + 1 - i)] := by
    unfold pyFindallBraces
    rw [h1, h2]
    dsimp only
    rw [if_pos hij]
  refine ⟨hfind, ?_⟩
  unfold extract_json_from_response
  rw [toList_mk, hfind, firstValidJson_singleton]

/-- Counterexample to C3 as stated: prose followed by an invalid and then
a valid brace-delimited substring; the single greedy candidate spans both
and fails to decode, so extraction returns nothing instead of the decoded
content of the second substring. -/
theorem c3_counterexample :
    extract_json_from_response "no \x7bbad\x7d yes \x7b\"a\": 1\x7d" = none ∧
    jsonLoads ("\x7b\"a\": 1\x7d".toList) = some (Json.obj [("a", Json.num "1")]) :=
  ⟨rfl, rfl⟩

/-- Witness for the amended C3 on a concrete text with a single embedded
object. -/
theorem c3_greedy_extraction_witness :
    pyFindallBraces ("x \x7b\"a\": 1\x7d y".toList) =
      [(("x \x7b\"a\": 1\x7d y".toList).drop 2).take 8] ∧
    extract_json_from_response (String.mk ("x \x7b\"a\": 1\x7d y".toList)) =
      jsonLoads ((("x \x7b\"a\": 1\x7d y".toList).drop 2).take 8) :=
  c3_greedy_extraction ("x \x7b\"a\": 1\x7d y".toList) 2 9
    (by decide) (by decide) (by decide) (by decide) (by decide)

/-- C4: every difficulty bucket of a generation run holds at most 3
questions, and holds fewer than 3 only when every category of the pool was
marked used for that bucket. -/
theorem c4_bucket_sizing :
    ∀ (cats : List String) (env : GenEnv) (retries : Nat) (e m h : GenState),
      generate_trivia_for_album cats env retries = some (e, m, h) →
      (e.bucket.length ≤ 3 ∧ (e.bucket.length < 3 → ∀ c ∈ cats, c ∈ e.used)) ∧
      (m.bucket.length ≤ 3 ∧ (m.bucket.length < 3 → ∀ c ∈ cats, c ∈ m.used)) ∧
      (h.bucket.length ≤ 3 ∧ (h.bucket.length < 3 → ∀ c ∈ cats, c ∈ h.used)) := by
  intro cats env retries e m h hgen
  unfold generate_trivia_for_album at hgen
  split at hgen
  · cases hgen
  · next s1 h1 =>
    split at hgen
    · cases hgen
    · next s2 h2 =>
      split at hgen
      · cases hgen
      · next s3 h3 =>
        cases hgen
        exact ⟨fillBucketFuel_bucket_spec _ _ _ h1 (by simp),
          fillBucketFuel_bucket_spec _ _ _ h2 (by simp),
          fillBucketFuel_bucket_spec _ _ _ h3 (by simp)⟩

/-- Witness for C4: an always-failing capability over a two-category pool
leaves all three buckets empty with every category used. -/
theorem c4_bucket_sizing_witness :
    generate_trivia_for_album ["k1", "k2"] failGenEnv 3 =
      some (⟨[], ["k2", "k1"], 6, 2⟩, ⟨[], ["k2", "k1"], 12, 4⟩, ⟨[], ["k2", "k1"], 18, 6⟩) ∧
    (⟨[], ["k2", "k1"], 6, 2⟩ : GenState).bucket.length ≤ 3 :=
  ⟨rfl, (c4_bucket_sizing ["k1", "k2"] failGenEnv 3 _ _ _ rfl).1.1⟩

/-- C5: with a generation capability failing on every call and retries=3,
one (difficulty, category) pair consumes exactly 3 call attempts and adds
no question, and the category loop moves on to the next category instead
of aborting. -/
theorem c5_retry_exhaustion :
    ∀ env : GenEnv, (∀ k, env.api k = Except.error ()) →
      (∀ c : Nat, tryAttempts env 3 c = (none, c + 3)) ∧
      (∀ (cats : List String) (fuel : Nat) (s : GenState) (a : String) (rest : List String),
        ¬ 3 ≤ s.bucket.length →
        cats.filter (fun c => !(s.used.contains c)) = a :: rest →
        ∃ sel ∈ cats.filter (fun c => !(s.used.contains c)),
          fillBucketFuel cats env 3 (fuel + 1) s =
            fillBucketFuel cats env 3 fuel ⟨s.bucket, sel :: s.used, s.calls + 3, s.picks + 1⟩) := by
  intro env hfail
  exact ⟨fun c => tryAttempts_fail hfail 3 c,
    fun cats fuel s a rest h3 hfil => fillBucketFuel_fail_step hfail fuel s h3 hfil⟩

/-- Witness for C5 at the always-failing environment. -/
theorem c5_retry_exhaustion_witness :
    (∀ k, failGenEnv.api k = Except.error ()) ∧
    tryAttempts failGenEnv 3 0 = (none, 0 + 3) :=
  ⟨fun _ => rfl, (c5_retry_exhaustion failGenEnv (fun _ => rfl)).1 0⟩

/-- C7: for every oracle behavior the generation routine terminates: the
fueled model of the while loop succeeds, and past the adequate fuel its
result is fuel-independent, because each iteration strictly enlarges the
used-category set, which the finite pool bounds. -/
theorem c7_generation_terminates :
    (∀ (cats : List String) (env : GenEnv) (retries : Nat),
      (generate_trivia_for_album cats env retries).isSome = true) ∧
    (∀ (cats : List String) (env : GenEnv) (retries f g : Nat) (s : GenState),
      (cats.filter (fun c => !(s.used.contains c))).length < f → f ≤ g →
      fillBucketFuel cats env retries g s = fillBucketFuel cats env retries f s) :=
  ⟨generate_trivia_for_album_isSome,
   fun _ _ _ f g s h1 h2 => fillBucketFuel_stable f s g h1 h2⟩

/-- Witness for C7 at a one-category pool and the always-failing api. -/
theorem c7_generation_terminates_witness :
    (generate_trivia_for_album ["k1"] failGenEnv 3).isSome = true ∧
    fillBucketFuel ["k1"] failGenEnv 3 5 ⟨[], [], 0, 0⟩ =
      fillBucketFuel ["k1"] failGenEnv 3 2 ⟨[], [], 0, 0⟩ :=
  ⟨c7_generation_terminates.1 ["k1"] failGenEnv 3,
   c7_generation_terminates.2 ["k1"] failGenEnv 3 2 5 ⟨[], [], 0, 0⟩ (by decide) (by decide)⟩

/-- C6 (amended): the chain tries Last.fm, Spotify, Discogs in that order;
a non-empty Last.fm URL short-circuits the chain and the result does not
depend on the Spotify and Discogs oracles at all (they are never invoked);
when Last.fm and Spotify return null, a Discogs URL is used.  But a
throwing provider call is NOT treated uniformly as "no result": a Last.fm
or Discogs exception is swallowed internally, while a Spotify exception
propagates and aborts the whole run before any effect for the album. -/
theorem c6_cover_fallback :
    (∀ (env : CreateEnv) (a b u : String),
      env.lastfm a b = Except.ok (some u) → u ≠ "" →
      resolveCoverUrl env a b = Except.ok (some u) ∧
      ∀ sp dc : String → String → Except Unit (Option String),
        resolveCoverUrl ⟨env.lastfm, sp, dc, env.download, env.gen, env.logExists⟩ a b =
          Except.ok (some u)) ∧
    (∀ (env : CreateEnv) (a b u : String),
      env.lastfm a b = Except.ok none → env.spotify a b = Except.ok none →
      env.discogs a b = Except.ok (some u) →
      resolveCoverUrl env a b = Except.ok (some u)) ∧
    (∀ (env : CreateEnv) (a b : String),
      env.lastfm a b = Except.ok none → env.spotify a b = Except.error () →
      resolveCoverUrl env a b = Except.error () ∧
      ∀ (cd g y : String) (loaded : List AlbumRecord),
        (a, b) ∉ storeKeys loaded →
        create_json_format env cd g [⟨a, b, y⟩] loaded =
          Except.error ⟨loaded, [],
            if env.logExists then [] else ["Fehlende Cover:\n"], []⟩) := by
  have htruthy : ∀ u : String, u ≠ "" → pyTruthy (some u) = true := by
    intro u hu
    show (!u.isEmpty) = true
    cases he : u.isEmpty
    · rfl
    · exact absurd ((String.isEmpty_iff u).mp he) hu
  refine ⟨?_, ?_, ?_⟩
  · intro env a b u hl hu
    constructor
    · unfold resolveCoverUrl get_lastfm_album_cover
      rw [hl]
      dsimp only
      rw [if_pos (htruthy u hu)]
    · intro sp dc
      unfold resolveCoverUrl get_lastfm_album_cover
      dsimp only
      rw [hl]
      dsimp only
      rw [if_pos (htruthy u hu)]
  · intro env a b u hl hs hd
    unfold resolveCoverUrl get_lastfm_album_cover get_spotify_album_cover
      get_discogs_album_cover
    rw [hl, hs, hd]
    dsimp only
    rfl
  · intro env a b hl hs
    have hres : resolveCoverUrl env a b = Except.error () := by
      unfold resolveCoverUrl get_lastfm_album_cover get_spotify_album_cover
      rw [hl, hs]
      dsimp only
      rfl
    refine ⟨hres, ?_⟩
    intro cd g y loaded hmem
    unfold create_json_format createLoop processEntry initRunState
    dsimp only
    rw [if_neg hmem, hres]

/-- Counterexample to C6 as stated: Last.fm returns null and the Spotify
call throws while Discogs would return a URL; the claim predicts the chain
proceeds and uses the Discogs URL, but the exception propagates, the run
aborts, and no record is appended. -/
theorem c6_cover_fallback_counterexample :
    resolveCoverUrl envC6 "Artist A" "Album B" = Except.error () ∧
    create_json_format envC6 "bandcover" "rock" [⟨"Artist A", "Album B", "1999"⟩] [] =
      Except.error ⟨[], [], [], []⟩ ∧
    envC6.discogs "Artist A" "Album B" = Except.ok (some "u3") ∧
    (Except.error () : Except Unit (Option String)) ≠ Except.ok (some "u3") :=
  ⟨rfl, rfl, rfl, by simp⟩

/-- Witness for the amended C6: with Last.fm and Spotify returning null
and Discogs returning a URL, that URL is the chain's result. -/
theorem c6_cover_fallback_witness :
    envDiscogsOnly.lastfm "a" "b" = Except.ok none ∧
    resolveCoverUrl envDiscogsOnly "a" "b" = Except.ok (some "u3") :=
  ⟨rfl, c6_cover_fallback.2.1 envDiscogsOnly "a" "b" "u3" rfl rfl rfl⟩

/-- C8 (amended): a successfully downloaded and decoded image is converted
to RGB only when its mode is exactly RGBA; it is then resized to 300x300
and JPEG-encoded, returning True, exactly when its (possibly converted)
mode is one Pillow's JPEG encoder accepts; other modes (e.g. palette P)
are not converted, the save raises, and False is returned with no file
written. -/
theorem c8_normalize_behavior :
    ∀ (env : ImgEnv) (url path : String) (st : Nat) (img : Img),
      env.fetch url = Except.ok (st, Except.ok img) → st = 200 →
      download_and_resize_album_cover env url path (300, 300) =
        (if img.mode = "RGBA" then (true, some (path, ⟨"RGB", 300, 300⟩))
         else if jpegWritable img.mode then (true, some (path, ⟨img.mode, 300, 300⟩))
         else (false, none)) := by
  intro env url path st img hf h200
  subst h200
  unfold download_and_resize_album_cover
  rw [hf]
  dsimp only
  rw [if_pos rfl]
  by_cases hm : img.mode = "RGBA"
  · rw [if_pos hm, if_pos hm]
    dsimp only [convertRGB, resizeImg]
    rw [if_pos (by rfl)]
  · rw [if_neg hm, if_neg hm]
    dsimp only [resizeImg]

/-- Counterexample to C8 as stated: a decoded palette-mode (P) image is
not converted to RGB; the JPEG save raises, the function returns False and
writes nothing, while the claim predicts an RGB image written and True. -/
theorem c8_normalize_counterexample :
    download_and_resize_album_cover envPaletteImg "u" "p" (300, 300) = (false, none) ∧
    download_and_resize_album_cover envPaletteImg "u" "p" (300, 300) ≠
      (true, some ("p", ⟨"RGB", 300, 300⟩)) :=
  ⟨rfl, by decide⟩

/-- Witness for the amended C8: an RGBA image is converted, resized, and
written as a 300x300 RGB JPEG with True returned. -/
theorem c8_normalize_behavior_witness :
    envRgbaImg.fetch "u" = Except.ok (200, Except.ok ⟨"RGBA", 640, 480⟩) ∧
    download_and_resize_album_cover envRgbaImg "u" "p" (300, 300) =
      (true, some ("p", ⟨"RGB", 300, 300⟩)) :=
  ⟨rfl, by
    have h := c8_normalize_behavior envRgbaImg "u" "p" 200 ⟨"RGBA", 640, 480⟩ rfl rfl
    simpa using h⟩

/-- C9: when all three providers return null for a new album, its record
is still appended and persisted with a null coverSrc, and the
missing-cover log gains exactly one line for it in the format
`Artist - Album - Year - sanitized_artist_sanitized_album.jpg`. -/
theorem c9_missing_cover_logged :
    ∀ (env : CreateEnv) (cd g a b y : String) (loaded : List AlbumRecord),
      env.lastfm a b = Except.ok none →
      env.spotify a b = Except.ok none →
      env.discogs a b = Except.ok none →
      (a, b) ∉ storeKeys loaded →
      create_json_format env cd g [⟨a, b, y⟩] loaded =
        Except.ok ⟨loaded ++ [⟨a, b, y, none, env.gen b a y⟩],
          [loaded ++ [⟨a, b, y, none, env.gen b a y⟩]],
          (if env.logExists then [] else ["Fehlende Cover:\n"]) ++
            [log_missing_cover_line a b y (clean_filename a) (clean_filename b)],
          [(b, a, y)]⟩ := by
  intro env cd g a b y loaded hl hs hd hmem
  have hres : resolveCoverUrl env a b = Except.ok none := by
    unfold resolveCoverUrl get_lastfm_album_cover get_spotify_album_cover
      get_discogs_album_cover
    rw [hl, hs, hd]
    dsimp only
    rfl
  unfold create_json_format createLoop processEntry initRunState
  dsimp only
  rw [if_neg hmem, hres]
  dsimp only
  rfl

/-- Witness for C9: a concrete run on ("Artist X", "Album Y") with every
provider returning null. -/
theorem c9_missing_cover_logged_witness :
    create_json_format envAllNone "bandcover" "rock" [⟨"Artist X", "Album Y", "2000"⟩] [] =
      Except.ok ⟨[⟨"Artist X", "Album Y", "2000", none, ⟨[], [], []⟩⟩],
        [[⟨"Artist X", "Album Y", "2000", none, ⟨[], [], []⟩⟩]],
        ["Artist X - Album Y - 2000 - artist_x_album_y.jpg\n"],
        [("Album Y", "Artist X", "2000")]⟩ :=
  c9_missing_cover_logged envAllNone "bandcover" "rock" "Artist X" "Album Y" "2000" []
    rfl rfl rfl (by simp [storeKeys])

/-- C10: a (stripped) line with two disjoint occurrences of the separator
parses into an entry whose year follows the last occurrence and whose
artist/album split at the first occurrence of the remainder; every other
line is skipped; and `read_album_data` keeps parsed entries in input order,
as the two concrete scenarios show. -/
theorem c10_read_album_data_grammar :
    (∀ (cs : List Char) (i j : Nat),
      albumSep.isPrefixOf (cs.drop i) = true →
      albumSep.isPrefixOf (cs.drop j) = true →
      i + 3 ≤ j →
      ∃ r f,
        albumSep.isPrefixOf (cs.drop r) = true ∧
        (∀ k, albumSep.isPrefixOf (cs.drop k) = true → k ≤ r) ∧
        albumSep.isPrefixOf ((cs.take r).drop f) = true ∧
        (∀ k, albumSep.isPrefixOf ((cs.take r).drop k) = true → f ≤ k) ∧
        parse_album_line cs =
          some ⟨String.mk ((cs.take r).take f), String.mk ((cs.take r).drop (f + 3)),
            String.mk (cs.drop (r + 3))⟩) ∧
    (∀ cs : List Char,
      (¬ ∃ i j, albumSep.isPrefixOf (cs.drop i) = true ∧
        albumSep.isPrefixOf (cs.drop j) = true ∧ i + 3 ≤ j) →
      parse_album_line cs = none) ∧
    read_album_data ["Kraftwerk - The Man-Machine - 1978", "NoDashesHere"] =
      [⟨"Kraftwerk", "The Man-Machine", "1978"⟩] :=
  ⟨fun _ _ _ hi hj hij => parse_album_line_spec hi hj hij,
   fun _ hno => parse_album_line_none hno,
   by decide⟩

/-- Witness for C10 on the line `a - b - c`. -/
theorem c10_read_album_data_grammar_witness :
    ∃ r f,
      albumSep.isPrefixOf (("a - b - c".toList).drop r) = true ∧
      (∀ k, albumSep.isPrefixOf (("a - b - c".toList).drop k) = true → k ≤ r) ∧
      albumSep.isPrefixOf ((("a - b - c".toList).take r).drop f) = true ∧
      (∀ k, albumSep.isPrefixOf ((("a - b - c".toList).take r).drop k) = true → f ≤ k) ∧
      parse_album_line ("a - b - c".toList) =
        some ⟨String.mk ((("a - b - c".toList).take r).take f),
          String.mk ((("a - b - c".toList).take r).drop (f + 3)),
          String.mk (("a - b - c".toList).drop (r + 3))⟩ :=
  c10_read_album_data_grammar.1 ("a - b - c".toList) 1 5 (by decide) (by decide) (by decide)
